import Mathlib

/-!
# DailyTaskKanban — shallow embedding of `src/app.py`

This file embeds the core of the Flask Daily Kanban application
(`src/app.py`) in Lean 4 and proves properties of the rollover/archival
engine, the task lifecycle operations and the archive query surface.

Modelling conventions:

* Calendar dates are represented by their proleptic-Gregorian ordinal
  (`Nat`, day 1 = 0001-01-01), exactly as Python's `date.toordinal()`.
  Python's `date` comparison and `date + timedelta(days=1)` then become
  `Nat` comparison and successor.
* Timestamps (`datetime.utcnow()`) are opaque `Nat` values supplied by the
  caller as a clock parameter `ts`.
* The persisted setting `last_active_date` is a string in the database.
  The code only ever interacts with it through `date.fromisoformat`
  inside `try/except` (read) and `date.isoformat` (write), so the stored
  string is modelled semantically by `WM`: `WM.valid d` stands for the
  ISO string of the date with ordinal `d`, `WM.corrupt s` for a string
  that `date.fromisoformat` rejects, and `WM.absent` for a missing row.
* `Task.query` results are kept in the store's insertion order; rows are
  inserted with strictly increasing ids (SQLite autoincrement), so
  insertion order and `order_by(Task.id)` order coincide for rows created
  through the embedded operations.  The claims proved below are about
  membership, not display order.
* Python `int(...)` applied to request values is modelled by `pyInt`;
  an uncaught Python exception is modelled by the `PyResult.exn`
  constructor of the route-level functions.
-/

namespace Kanban

/-- The stored `last_active_date` setting, as seen through
`Setting.get('last_active_date')` followed by `date.fromisoformat`:
`absent` = no row / empty value (falsy), `corrupt s` = a string that
`date.fromisoformat` raises on, `valid d` = the ISO string of the date
with ordinal `d`. -/
inductive WM where
  | absent : WM
  | corrupt : String → WM
  | valid : Nat → WM
deriving Repr, DecidableEq

/-- A row of the `Task` table (`src/app.py:49`).  `task_date` is the
Python `date.toordinal()` of the task's date; `created_at` and
`archived_at` are opaque timestamps. -/
structure Task where
  id : Nat
  title : String
  description : String
  column_index : Int
  created_at : Nat
  task_date : Nat
  archived : Bool
  archived_at : Option Nat
deriving Repr, DecidableEq

/-- The persistent state: the `Task` table in insertion order, the two
settings used by the code, and the autoincrement counter for task ids. -/
structure Store where
  tasks : List Task
  last_active_date : WM
  columns : Option String
  next_id : Nat
deriving Repr, DecidableEq

/-- `Task.query.get(tid)`: primary-key lookup. -/
def getTask (s : Store) (tid : Nat) : Option Task :=
  s.tasks.find? (fun t => t.id = tid)

/-- One iteration of the archive loop body (`src/app.py:101-106`):
`Task.query.filter_by(task_date=day, archived=False)` and, for each hit,
`t.archived = True; t.archived_at = datetime.utcnow()`. -/
def archiveDay (tasks : List Task) (day ts : Nat) : List Task :=
  tasks.map fun t =>
    if t.task_date = day ∧ t.archived = false then
      { t with archived := true, archived_at := some ts }
    else t

/-- The `while day < today` loop of `check_rollover_and_archive`
(`src/app.py:100-107`), with the iteration count `today - day` made
explicit as structural fuel: the loop body runs once per day of the
half-open range `[day, today)`. -/
def archiveLoopF : Nat → List Task → Nat → Nat → List Task
  | 0, tasks, _, _ => tasks
  | n + 1, tasks, day, ts => archiveLoopF n (archiveDay tasks day ts) (day + 1) ts

def archiveLoop (tasks : List Task) (day today ts : Nat) : List Task :=
  archiveLoopF (today - day) tasks day ts

/-- `check_rollover_and_archive()` (`src/app.py:84-109`), with the calls
to `date.today()` and `datetime.utcnow()` supplied as `today` and `ts`. -/
def check_rollover_and_archive (s : Store) (today ts : Nat) : Store :=
  match s.last_active_date with
  | WM.absent => { s with last_active_date := WM.valid today }
  | WM.corrupt _ => { s with last_active_date := WM.valid today }
  | WM.valid last_date =>
    if last_date ≥ today then s
    else
      { s with
        tasks := archiveLoop s.tasks last_date today ts,
        last_active_date := WM.valid today }

/-- The per-task effect of archiving the half-open day range `[lo, hi)`:
the functional footprint of `archiveLoop tasks lo hi ts`. -/
def archT (lo hi ts : Nat) (t : Task) : Task :=
  if lo ≤ t.task_date ∧ t.task_date < hi ∧ t.archived = false then
    { t with archived := true, archived_at := some ts }
  else t

/-- Client-visible rejection taxonomy of the lifecycle routes:
`notFound` is the `('task not found', 404)` response, `notEditable` the
`400` responses (`'task is archived or not editable'` / `'not editable'`
/ `'not deletable'`). -/
inductive OpError where
  | notFound : OpError
  | notEditable : OpError
deriving Repr, DecidableEq

/-- `add_task` (`src/app.py:128-140`) after request parsing: `title` is
`data.get('title')` (`none` = absent), `description` is
`data.get('description', '')` already defaulted, `col` is the already
converted `int(data.get('column_index', 0))`.  Python's `not title` is
true exactly for an absent or empty title.  The new row gets the next
autoincrement id and is appended to the table. -/
def add_task (s : Store) (today ts : Nat) (title : Option String)
    (description : String) (col : Int) : Store × Except String Task :=
  let s1 := check_rollover_and_archive s today ts
  if title = none ∨ title = some "" then
    (s1, Except.error "title required")
  else
    let t : Task :=
      { id := s1.next_id, title := title.getD "", description := description,
        column_index := col, created_at := ts, task_date := today,
        archived := false, archived_at := none }
    ({ s1 with tasks := s1.tasks ++ [t], next_id := s1.next_id + 1 }, Except.ok t)

/-- `move_task` (`src/app.py:142-155`) after request parsing.  `id` is a
primary key, so at most one row matches; the in-place mutation of the
fetched row is modelled by updating the row with that id. -/
def move_task (s : Store) (today ts : Nat) (task_id : Nat) (new_col : Int) :
    Store × Except OpError Unit :=
  let s1 := check_rollover_and_archive s today ts
  match getTask s1 task_id with
  | none => (s1, Except.error OpError.notFound)
  | some t =>
    if t.task_date ≠ today ∨ t.archived = true then
      (s1, Except.error OpError.notEditable)
    else
      ({ s1 with tasks := s1.tasks.map fun u =>
          if u.id = task_id then { u with column_index := new_col } else u },
        Except.ok ())

/-- `edit_task` (`src/app.py:157-170`) after request parsing.
`data.get('title', t.title)` keeps the stored value when the field is
absent and uses the supplied value otherwise — even when it is `""`. -/
def edit_task (s : Store) (today ts : Nat) (task_id : Nat)
    (title description : Option String) : Store × Except OpError Task :=
  let s1 := check_rollover_and_archive s today ts
  match getTask s1 task_id with
  | none => (s1, Except.error OpError.notFound)
  | some t =>
    if t.task_date ≠ today ∨ t.archived = true then
      (s1, Except.error OpError.notEditable)
    else
      let t' := { t with title := title.getD t.title,
                         description := description.getD t.description }
      ({ s1 with tasks := s1.tasks.map fun u =>
          if u.id = task_id then t' else u },
        Except.ok t')

/-- `delete_task` (`src/app.py:172-184`) after request parsing. -/
def delete_task (s : Store) (today ts : Nat) (task_id : Nat) :
    Store × Except OpError Unit :=
  let s1 := check_rollover_and_archive s today ts
  match getTask s1 task_id with
  | none => (s1, Except.error OpError.notFound)
  | some t =>
    if t.task_date ≠ today ∨ t.archived = true then
      (s1, Except.error OpError.notEditable)
    else
      ({ s1 with tasks := s1.tasks.filter fun u => u.id ≠ task_id },
        Except.ok ())

/-- Column-name preparation of the board view (`src/app.py:115-120`):
split the setting on `','`, drop empty names, truncate to 5, then pad
with `Column {i}` names up to length 5. -/
def padColumnsF : Nat → List String → List String
  | 0, cols => cols
  | n + 1, cols =>
    if cols.length < 5 then
      padColumnsF n (cols ++ ["Column " ++ toString (cols.length + 1)])
    else cols

def padColumns (cols : List String) : List String :=
  padColumnsF (5 - cols.length) cols

/-- Python `str.split(',')` on the underlying characters: every comma
separates, empty pieces are kept (`''.split(',') == ['']`). -/
def splitComma : List Char → List (List Char)
  | [] => [[]]
  | c :: rest =>
    match splitComma rest with
    | [] => if c = ',' then [[], []] else [[c]]
    | h :: t => if c = ',' then [] :: h :: t else (c :: h) :: t

def pySplitComma (s : String) : List String :=
  (splitComma s.data).map (fun l => String.mk l)

def boardColumns (colsSetting : Option String) : List String :=
  let cols_raw := colsSetting.getD ""
  let cols := (pySplitComma cols_raw).filter (fun c => c ≠ "")
  let cols := if cols.length > 5 then cols.take 5 else cols
  padColumns cols

/-- `tasks_by_col.setdefault(col, []).append(t)` on a Python dict kept as
an association list in insertion order. -/
def dictAppend (d : List (Int × List Task)) (k : Int) (t : Task) :
    List (Int × List Task) :=
  match d with
  | [] => [(k, [t])]
  | (k', l) :: rest =>
    if k' = k then (k', l ++ [t]) :: rest else (k', l) :: dictAppend rest k t

/-- Dict lookup, `tasks_by_col[k]`. -/
def dictFind (d : List (Int × List Task)) (k : Int) : Option (List Task) :=
  (d.find? (fun p => p.1 = k)).map (fun p => p.2)

/-- The grouping loop of `index` (`src/app.py:123-125`). -/
def buildTasksByCol (init : List (Int × List Task)) (tasks : List Task) :
    List (Int × List Task) :=
  tasks.foldl (fun d t => dictAppend d t.column_index t) init

/-- The `index` route (`src/app.py:112-126`): rollover, column names,
today's tasks (regardless of `archived`) grouped by `column_index`
starting from `{i: [] for i in range(len(cols))}`.  `order_by(Task.id)`
is the insertion order of the table (ids are assigned increasingly). -/
def index (s : Store) (today ts : Nat) :
    Store × List String × List (Int × List Task) :=
  let s1 := check_rollover_and_archive s today ts
  let cols := boardColumns s1.columns
  let todayTasks := s1.tasks.filter (fun t => t.task_date = today)
  let init := (List.range cols.length).map (fun i => ((i : Int), ([] : List Task)))
  (s1, cols, buildTasksByCol init todayTasks)

/-- `date.isoformat`/`toordinal` support: is `y` a Gregorian leap year. -/
def isLeap (y : Nat) : Bool := y % 4 = 0 && (y % 100 ≠ 0 || y % 400 = 0)

/-- Days in the years `[1, y)`, as in CPython `datetime._days_before_year`. -/
def daysBeforeYear (y : Nat) : Nat :=
  (y - 1) * 365 + (y - 1) / 4 - (y - 1) / 100 + (y - 1) / 400

def daysInMonth (y m : Nat) : Nat :=
  if m = 2 then (if isLeap y then 29 else 28)
  else if m = 4 ∨ m = 6 ∨ m = 9 ∨ m = 11 then 30
  else 31

def daysBeforeMonth (y m : Nat) : Nat :=
  (List.range (m - 1)).foldl (fun acc i => acc + daysInMonth y (i + 1)) 0

/-- `date(y, m, d).toordinal()` (proleptic Gregorian ordinal, day 1 =
0001-01-01), as in CPython `datetime._ymd2ord`. -/
def ymd2ord (y m d : Nat) : Nat := daysBeforeYear y + daysBeforeMonth y m + d

/-- The year component of CPython `datetime._ord2ymd`. -/
def ord2year (nn : Nat) : Nat :=
  let n := nn - 1
  let n400 := n / 146097
  let n := n % 146097
  let n100 := n / 36524
  let n := n % 36524
  let n4 := n / 1461
  let n := n % 1461
  let n1 := n / 365
  let year := n400 * 400 + 1 + n100 * 100 + n4 * 4 + n1
  if n1 = 4 ∨ n100 = 4 then year - 1 else year

/-- CPython `datetime._isoweek1monday`: ordinal of the Monday starting
ISO week 1 of `year`. -/
def isoweek1monday (year : Nat) : Int :=
  let firstday : Int := (ymd2ord year 1 1 : Nat)
  let firstweekday := Int.emod (firstday + 6) 7
  let week1monday := firstday - firstweekday
  if firstweekday > 3 then week1monday + 7 else week1monday

/-- `date.fromordinal(ord).isocalendar()` as in CPython: the ISO-8601
`(year, week, weekday)` triple.  Python's `divmod` on ints is floor
division, which for the positive divisor 7 is `Int.ediv`/`Int.emod`. -/
def isocalendar (ord : Nat) : Nat × Nat × Nat :=
  let year := ord2year ord
  let t : Int := (ord : Nat)
  let w1m := isoweek1monday year
  let week : Int := Int.ediv (t - w1m) 7
  let day : Int := Int.emod (t - w1m) 7
  if week < 0 then
    let w1m' := isoweek1monday (year - 1)
    (year - 1, (Int.ediv (t - w1m') 7 + 1).toNat, (Int.emod (t - w1m') 7 + 1).toNat)
  else if week ≥ 52 ∧ t ≥ isoweek1monday (year + 1) then
    (year + 1, 1, (day + 1).toNat)
  else
    (year, (week + 1).toNat, (day + 1).toNat)

/-- The `archive_day` route (`src/app.py:207-215`) after the path
segment parsed as a date: rollover, then *all* tasks of that date (the
query has no `archived` filter). -/
def archive_day (s : Store) (today ts : Nat) (day : Nat) : Store × List Task :=
  let s1 := check_rollover_and_archive s today ts
  (s1, s1.tasks.filter (fun t => t.task_date = day))

/-- The `archive_week` route (`src/app.py:217-229`) after the path
segments parsed as ints: rollover, then the archived tasks whose
`isocalendar()` year and week equal the request. -/
def archive_week (s : Store) (today ts : Nat) (y w : Nat) : Store × List Task :=
  let s1 := check_rollover_and_archive s today ts
  (s1, s1.tasks.filter (fun t =>
    t.archived = true ∧ (isocalendar t.task_date).1 = y ∧
      (isocalendar t.task_date).2.1 = w))

/-- A parsed request body.  Field values arrive as strings (form data /
JSON scalars rendered as their decimal text); `none` = field absent. -/
structure ReqData where
  title : Option String
  description : Option String
  rid : Option String
  column_index : Option String
deriving Repr, DecidableEq

def emptyReq : ReqData := ⟨none, none, none, none⟩

/-- Outcome of a route handler: a successful JSON response, an error
response `jsonify({'error': msg}), status`, or an uncaught Python
exception propagating out of the handler (`exn`). -/
inductive PyResult (α : Type) where
  | ok : α → PyResult α
  | clientError : String → Nat → PyResult α
  | exn : PyResult α
deriving Repr, DecidableEq

/-- The value of a nonempty all-digit character string. -/
def digitsVal (l : List Char) : Option Nat :=
  if l ≠ [] ∧ l.all (fun c => c.isDigit) then
    some (l.foldl (fun acc c => acc * 10 + (c.toNat - 48)) 0)
  else none

/-- Python `int(...)` on a request string: surrounding whitespace is
ignored, then an optional sign and a nonempty digit run; anything else
raises (`none`). -/
def pyInt (st : String) : Option Int :=
  let s := ((st.data.dropWhile Char.isWhitespace).reverse.dropWhile
    Char.isWhitespace).reverse
  match s with
  | '-' :: ds => (digitsVal ds).map (fun n => -(n : Int))
  | '+' :: ds => (digitsVal ds).map (fun n => (n : Int))
  | ds => (digitsVal ds).map (fun n => (n : Int))

/-- `Task.query.get(data.get('id'))` at the route level: an absent id
(`None`) or a string that matches no primary key finds nothing. -/
def getTaskRaw (s : Store) (rid : Option String) : Option Task :=
  match rid.bind pyInt with
  | none => none
  | some i => s.tasks.find? (fun t => (t.id : Int) = i)

/-- The raw `add_task` route (`src/app.py:128-140`).  `request.json or
request.form` yields an empty mapping when no body was sent, so `body =
none` behaves like `emptyReq`.  `int(data.get('column_index', 0))` runs
before the title check and raises on a non-numeric value. -/
def add_task_route (s : Store) (today ts : Nat) (body : Option ReqData) :
    Store × PyResult Task :=
  let s1 := check_rollover_and_archive s today ts
  let data := body.getD emptyReq
  match (match data.column_index with
         | none => some (0 : Int)
         | some v => pyInt v) with
  | none => (s1, PyResult.exn)
  | some col =>
    if data.title = none ∨ data.title = some "" then
      (s1, PyResult.clientError "title required" 400)
    else
      let t : Task :=
        { id := s1.next_id, title := data.title.getD "",
          description := data.description.getD "", column_index := col,
          created_at := ts, task_date := today, archived := false,
          archived_at := none }
      ({ s1 with tasks := s1.tasks ++ [t], next_id := s1.next_id + 1 },
        PyResult.ok t)

/-- The raw `move_task` route (`src/app.py:142-155`).  It reads
`request.json` alone: with no JSON body `data` is `None` and
`data.get('id')` raises; `int(data.get('column_index'))` raises when the
field is absent (`int(None)`) or non-numeric. -/
def move_task_route (s : Store) (today ts : Nat) (body : Option ReqData) :
    Store × PyResult Unit :=
  let s1 := check_rollover_and_archive s today ts
  match body with
  | none => (s1, PyResult.exn)
  | some data =>
    match (match data.column_index with
           | none => none
           | some v => pyInt v) with
    | none => (s1, PyResult.exn)
    | some col =>
      match getTaskRaw s1 data.rid with
      | none => (s1, PyResult.clientError "task not found" 404)
      | some t =>
        if t.task_date ≠ today ∨ t.archived = true then
          (s1, PyResult.clientError "task is archived or not editable" 400)
        else
          ({ s1 with tasks := s1.tasks.map fun u =>
              if u.id = t.id then { u with column_index := col } else u },
            PyResult.ok ())

/-- The raw `edit_task` route (`src/app.py:157-170`): `request.json or
request.form`, no `int(...)` conversion, so no raising prologue. -/
def edit_task_route (s : Store) (today ts : Nat) (body : Option ReqData) :
    Store × PyResult Task :=
  let s1 := check_rollover_and_archive s today ts
  let data := body.getD emptyReq
  match getTaskRaw s1 data.rid with
  | none => (s1, PyResult.clientError "task not found" 404)
  | some t =>
    if t.task_date ≠ today ∨ t.archived = true then
      (s1, PyResult.clientError "not editable" 400)
    else
      let t' := { t with title := data.title.getD t.title,
                         description := data.description.getD t.description }
      ({ s1 with tasks := s1.tasks.map fun u => if u.id = t.id then t' else u },
        PyResult.ok t')

/-- The raw `delete_task` route (`src/app.py:172-184`). -/
def delete_task_route (s : Store) (today ts : Nat) (body : Option ReqData) :
    Store × PyResult Unit :=
  let s1 := check_rollover_and_archive s today ts
  let data := body.getD emptyReq
  match getTaskRaw s1 data.rid with
  | none => (s1, PyResult.clientError "task not found" 404)
  | some t =>
    if t.task_date ≠ today ∨ t.archived = true then
      (s1, PyResult.clientError "not deletable" 400)
    else
      ({ s1 with tasks := s1.tasks.filter fun u => u.id ≠ t.id },
        PyResult.ok ())

/-- The ids of the archived tasks, in table order: the archived set. -/
def archivedIds (s : Store) : List Nat :=
  (s.tasks.filter (fun t => t.archived)).map (fun t => t.id)

/-- Iterated `catch_up`: each pair is a `(today, ts)` clock reading. -/
def catchUps (s : Store) (calls : List (Nat × Nat)) : Store :=
  calls.foldl (fun s c => check_rollover_and_archive s c.1 c.2) s

/-- Membership of task `t` in the bucket of key `k` of a grouping dict. -/
def memDict (d : List (Int × List Task)) (k : Int) (t : Task) : Prop :=
  ∃ l, dictFind d k = some l ∧ t ∈ l

/-- The watermark/archive invariant of the data model: the stored
watermark parses, is at most `today`, and every task dated strictly
before it is archived. -/
def WMInv (s : Store) (today : Nat) : Prop :=
  ∃ w, s.last_active_date = WM.valid w ∧ w ≤ today ∧
    ∀ t ∈ s.tasks, t.task_date < w → t.archived = true

/-- The title invariant of the data model: every stored title is a
non-empty string. -/
def titlesNonEmpty (s : Store) : Prop :=
  ∀ t ∈ s.tasks, t.title ≠ ""

/-! Concrete sample data used by the witness and counterexample
theorems.  Day ordinals are kept small for readability except where a
real calendar date matters; `738917` is `date(2024, 2, 1).toordinal()`. -/

/-- A task created on day 3, still unarchived, in column 0. -/
def tA : Task := ⟨1, "a", "", 0, 0, 3, false, none⟩

/-- A store whose watermark is day 3, holding just `tA`. -/
def sA : Store := ⟨[tA], WM.valid 3, none, 2⟩

/-- A task created on day 5, still unarchived, in column 0. -/
def tD : Task := ⟨1, "a", "", 0, 0, 5, false, none⟩

/-- A store whose `last_active_date` holds the unparsable literal
`"not-a-date"` (the corruption scenario of the spec). -/
def sB : Store := ⟨[tD], WM.corrupt "not-a-date", none, 2⟩

/-- An empty store with watermark day 5. -/
def sC : Store := ⟨[], WM.valid 5, none, 1⟩

/-- A store at watermark day 5 holding just `tD`. -/
def sD : Store := ⟨[tD], WM.valid 5, none, 2⟩

theorem archT_step (day today ts : Nat) (h : day < today) (t : Task) :
    archT (day + 1) today ts
      (if t.task_date = day ∧ t.archived = false then
        { t with archived := true, archived_at := some ts } else t)
      = archT day today ts t := by
  obtain ⟨i, ti, de, ci, ca, td, ar, aa⟩ := t
  simp only [archT]
  split_ifs with h1 h2 h2 h3 <;> simp_all <;> omega

theorem archT_outside_id (day today ts : Nat) (h : ¬ day < today)
    (tasks : List Task) : tasks.map (archT day today ts) = tasks := by
  have hid : ∀ t ∈ tasks, archT day today ts t = t := by
    intro t _
    unfold archT
    rw [if_neg]
    intro ⟨ha, hb, _⟩
    omega
  exact (List.map_congr_left hid).trans (List.map_id' tasks)

theorem archiveLoopF_eq_map (n : Nat) :
    ∀ (tasks : List Task) (day ts : Nat),
      archiveLoopF n tasks day ts = tasks.map (archT day (day + n) ts) := by
  induction n with
  | zero =>
    intro tasks day ts
    exact (archT_outside_id day (day + 0) ts (by omega) tasks).symm
  | succ n ih =>
    intro tasks day ts
    show archiveLoopF n (archiveDay tasks day ts) (day + 1) ts = _
    rw [ih (archiveDay tasks day ts) (day + 1) ts]
    unfold archiveDay
    rw [List.map_map]
    have harr : day + 1 + n = day + (n + 1) := by omega
    rw [harr]
    exact List.map_congr_left fun t _ =>
      archT_step day (day + (n + 1)) ts (by omega) t

theorem archiveLoop_eq_map (tasks : List Task) (day today ts : Nat) :
    archiveLoop tasks day today ts = tasks.map (archT day today ts) := by
  unfold archiveLoop
  rw [archiveLoopF_eq_map (today - day) tasks day ts]
  by_cases h : day ≤ today
  · have : day + (today - day) = today := by omega
    rw [this]
  · have h0 : today - day = 0 := by omega
    rw [h0, archT_outside_id day (day + 0) ts (by omega) tasks,
      archT_outside_id day today ts (by omega) tasks]

theorem archT_id (lo hi ts : Nat) (t : Task) : (archT lo hi ts t).id = t.id := by
  unfold archT; split_ifs <;> rfl

theorem archT_date (lo hi ts : Nat) (t : Task) :
    (archT lo hi ts t).task_date = t.task_date := by
  unfold archT; split_ifs <;> rfl

theorem archT_archived (lo hi ts : Nat) (t : Task) :
    (archT lo hi ts t).archived
      = (t.archived || (decide (lo ≤ t.task_date) && decide (t.task_date < hi))) := by
  unfold archT
  split_ifs with h
  · obtain ⟨h1, h2, h3⟩ := h
    simp [h1, h2]
  · cases harch : t.archived with
    | true => simp [harch]
    | false =>
      have hc : ¬(lo ≤ t.task_date ∧ t.task_date < hi) := fun hc => h ⟨hc.1, hc.2, harch⟩
      by_cases hlo : lo ≤ t.task_date <;> by_cases hhi : t.task_date < hi <;>
        simp [hlo, hhi, harch]
      exact hc ⟨hlo, hhi⟩

/-- `check_rollover_and_archive` on a parsable watermark `W`, in closed
form: every task goes through `archT W (max W today) ts` and the
watermark becomes `max W today`. -/
theorem catchup_valid_eq (s : Store) (W today ts : Nat)
    (hW : s.last_active_date = WM.valid W) :
    check_rollover_and_archive s today ts =
      { s with tasks := s.tasks.map (archT W (max W today) ts),
               last_active_date := WM.valid (max W today) } := by
  obtain ⟨tasks, last, cols, nid⟩ := s
  simp only at hW
  subst hW
  unfold check_rollover_and_archive
  simp only
  by_cases h : W ≥ today
  · rw [if_pos h]
    have hm : max W today = W := by omega
    rw [hm]
    have hid : ∀ t ∈ tasks, archT W W ts t = t := by
      intro t _
      unfold archT
      rw [if_neg]
      intro ⟨a, b, _⟩
      omega
    rw [List.map_congr_left hid, List.map_id']
  · rw [if_neg h]
    have hm : max W today = today := by omega
    rw [hm, archiveLoop_eq_map]

theorem archivedIds_canonical (l : List Task) (lo hi ts : Nat) :
    ((l.map (archT lo hi ts)).filter (fun t => t.archived)).map (fun t => t.id)
      = (l.filter (fun t =>
          t.archived || (decide (lo ≤ t.task_date) && decide (t.task_date < hi)))).map
          (fun t => t.id) := by
  induction l with
  | nil => rfl
  | cons t l ih =>
    simp only [List.map_cons, List.filter_cons, archT_archived]
    cases hc : (t.archived || (decide (lo ≤ t.task_date) && decide (t.task_date < hi))) with
    | true => simp only [if_pos, List.map_cons, archT_id, ih]
    | false => simpa using ih

theorem archivedIds_catchup (s : Store) (W today ts : Nat)
    (hW : s.last_active_date = WM.valid W) :
    archivedIds (check_rollover_and_archive s today ts)
      = (s.tasks.filter (fun t =>
          t.archived || (decide (W ≤ t.task_date) && decide (t.task_date < max W today)))).map
          (fun t => t.id) := by
  rw [catchup_valid_eq s W today ts hW]
  unfold archivedIds
  exact archivedIds_canonical s.tasks W (max W today) ts

theorem mark_twice (W n1 n2 : Nat) (h12 : n1 ≤ n2) (arch : Bool) (d : Nat) :
    ((arch || (decide (W ≤ d) && decide (d < max W n1)))
        || (decide (max W n1 ≤ d) && decide (d < max (max W n1) n2)))
      = (arch || (decide (W ≤ d) && decide (d < max W n2))) := by
  cases arch with
  | true => simp
  | false =>
    rw [Bool.eq_iff_iff]
    simp only [Bool.false_or, Bool.or_eq_true, Bool.and_eq_true, decide_eq_true_eq]
    omega

/-- Two consecutive `catch_up` calls with non-decreasing clocks archive
the same ids as the second call alone. -/
theorem archivedIds_two_step (s : Store) (W n1 n2 ts1 ts2 tsf : Nat)
    (hW : s.last_active_date = WM.valid W) (h12 : n1 ≤ n2) :
    archivedIds
        (check_rollover_and_archive (check_rollover_and_archive s n1 ts1) n2 ts2)
      = archivedIds (check_rollover_and_archive s n2 tsf) := by
  have h1 := catchup_valid_eq s W n1 ts1 hW
  have hW1 : (check_rollover_and_archive s n1 ts1).last_active_date
      = WM.valid (max W n1) := by rw [h1]
  rw [archivedIds_catchup _ (max W n1) n2 ts2 hW1,
      archivedIds_catchup s W n2 tsf hW]
  have htasks : (check_rollover_and_archive s n1 ts1).tasks
      = s.tasks.map (archT W (max W n1) ts1) := by rw [h1]
  rw [htasks, List.filter_map, List.map_map]
  have hfil : ∀ t ∈ s.tasks,
      ((fun t => t.archived
          || (decide (max W n1 ≤ t.task_date)
              && decide (t.task_date < max (max W n1) n2))) ∘ archT W (max W n1) ts1) t
        = (fun t => t.archived
            || (decide (W ≤ t.task_date) && decide (t.task_date < max W n2))) t := by
    intro t _
    simp only [Function.comp_apply, archT_archived, archT_date]
    exact mark_twice W n1 n2 h12 t.archived t.task_date
  rw [List.filter_congr hfil]
  exact List.map_congr_left fun t _ => by
    simp only [Function.comp_apply, archT_id]

theorem chain_fst_le_getLast (c : Nat × Nat) (l : List (Nat × Nat))
    (h : List.Chain' (fun a b : Nat × Nat => a.1 ≤ b.1) (c :: l)) (hne : l ≠ []) :
    c.1 ≤ (l.getLast hne).1 := by
  induction l generalizing c with
  | nil => exact absurd rfl hne
  | cons x xs ih =>
    rw [List.chain'_cons] at h
    revert hne
    cases xs with
    | nil => intro hne; exact h.1
    | cons y ys =>
      intro hne
      rw [List.getLast_cons (by simp)]
      exact le_trans h.1 (ih x h.2 (by simp))

/-- A batch of `catch_up` calls with non-decreasing clocks and a
parsable initial watermark archives the same ids as one call with the
final clock value. -/
theorem catchUps_archivedIds (calls : List (Nat × Nat)) (s : Store) (W : Nat)
    (hW : s.last_active_date = WM.valid W)
    (hmono : List.Chain' (fun a b : Nat × Nat => a.1 ≤ b.1) calls)
    (hne : calls ≠ []) (tsf : Nat) :
    archivedIds (catchUps s calls)
      = archivedIds (check_rollover_and_archive s (calls.getLast hne).1 tsf) := by
  induction calls generalizing s W with
  | nil => exact absurd rfl hne
  | cons c rest ih =>
    have hW1 : (check_rollover_and_archive s c.1 c.2).last_active_date
        = WM.valid (max W c.1) := by rw [catchup_valid_eq s W c.1 c.2 hW]
    revert hne
    cases rest with
    | nil =>
      intro hne
      show archivedIds (check_rollover_and_archive s c.1 c.2) = _
      rw [archivedIds_catchup s W c.1 c.2 hW, archivedIds_catchup s W _ tsf hW]
      rfl
    | cons c2 rest2 =>
      intro hne
      have hstep : catchUps s (c :: c2 :: rest2)
          = catchUps (check_rollover_and_archive s c.1 c.2) (c2 :: rest2) := rfl
      have hgl : (c :: c2 :: rest2).getLast hne
          = (c2 :: rest2).getLast (by simp) := List.getLast_cons _
      rw [hstep,
        ih (check_rollover_and_archive s c.1 c.2) (max W c.1) hW1
          (List.Chain'.tail hmono) (by simp), hgl]
      exact archivedIds_two_step s W c.1 ((c2 :: rest2).getLast (by simp)).1
        c.2 tsf tsf hW
        (chain_fst_le_getLast c (c2 :: rest2) hmono (by simp))

theorem dictFind_cons (k0 : Int) (l0 : List Task)
    (rest : List (Int × List Task)) (k' : Int) :
    dictFind ((k0, l0) :: rest) k' =
      if k0 = k' then some l0 else dictFind rest k' := by
  unfold dictFind
  by_cases h : k0 = k'
  · simp [List.find?_cons, h]
  · simp [List.find?_cons, h]

theorem dictFind_dictAppend (d : List (Int × List Task)) (k k' : Int)
    (t : Task) :
    dictFind (dictAppend d k t) k' =
      if k' = k then some ((dictFind d k).getD [] ++ [t]) else dictFind d k' := by
  induction d with
  | nil =>
    show dictFind [(k, [t])] k' = _
    rw [dictFind_cons]
    by_cases h : k' = k
    · rw [if_pos h.symm, if_pos h]
      rfl
    · rw [if_neg (fun hc => h hc.symm), if_neg h]
  | cons p rest ih =>
    obtain ⟨k0, l0⟩ := p
    by_cases hk : k0 = k
    · subst hk
      have heq : dictAppend ((k0, l0) :: rest) k0 t = (k0, l0 ++ [t]) :: rest := by
        unfold dictAppend
        rw [if_pos rfl]
      rw [heq, dictFind_cons, dictFind_cons, dictFind_cons]
      by_cases h : k0 = k'
      · rw [if_pos h, if_pos h.symm, if_pos rfl]
        rfl
      · rw [if_neg h, if_neg (fun hc => h hc.symm), if_neg h]
    · have heq : dictAppend ((k0, l0) :: rest) k t
          = (k0, l0) :: dictAppend rest k t := by
        conv_lhs => unfold dictAppend
        rw [if_neg hk]
      rw [heq, dictFind_cons, dictFind_cons, dictFind_cons, ih]
      by_cases h : k0 = k'
      · have h2 : ¬ k' = k := fun hc => hk (h.trans hc)
        rw [if_pos h, if_neg h2, if_pos h]
      · rw [if_neg h, if_neg hk, if_neg h]

theorem memDict_dictAppend_preserved (d : List (Int × List Task)) (k : Int)
    (t : Task) (k' : Int) (u : Task) (h : memDict d k' u) :
    memDict (dictAppend d k t) k' u := by
  obtain ⟨l, hl, hu⟩ := h
  unfold memDict
  rw [dictFind_dictAppend]
  by_cases hk : k' = k
  · refine ⟨(dictFind d k).getD [] ++ [t], by rw [if_pos hk], ?_⟩
    apply List.mem_append_left
    rw [← hk, hl]
    exact hu
  · exact ⟨l, by rw [if_neg hk]; exact hl, hu⟩

theorem memDict_dictAppend_self (d : List (Int × List Task)) (k : Int)
    (t : Task) : memDict (dictAppend d k t) k t := by
  unfold memDict
  rw [dictFind_dictAppend]
  exact ⟨(dictFind d k).getD [] ++ [t], by rw [if_pos rfl], by simp⟩

theorem memDict_build_preserved (tasks : List Task)
    (d : List (Int × List Task)) (k : Int) (u : Task) (h : memDict d k u) :
    memDict (buildTasksByCol d tasks) k u := by
  induction tasks generalizing d with
  | nil => exact h
  | cons t rest ih =>
    exact ih _ (memDict_dictAppend_preserved d t.column_index t k u h)

theorem memDict_build_mem (tasks : List Task) (d : List (Int × List Task))
    (u : Task) (hu : u ∈ tasks) :
    memDict (buildTasksByCol d tasks) u.column_index u := by
  induction tasks generalizing d with
  | nil => exact absurd hu (List.not_mem_nil u)
  | cons t rest ih =>
    rcases List.mem_cons.mp hu with hu1 | hu1
    · subst hu1
      exact memDict_build_preserved rest _ _ _
        (memDict_dictAppend_self d u.column_index u)
    · exact ih _ hu1

theorem move_task_cases (s : Store) (today ts tid : Nat) (col : Int) :
    (getTask (check_rollover_and_archive s today ts) tid = none ∧
      move_task s today ts tid col =
        (check_rollover_and_archive s today ts, Except.error OpError.notFound))
    ∨ (∃ t, getTask (check_rollover_and_archive s today ts) tid = some t ∧
        (t.task_date ≠ today ∨ t.archived = true) ∧
        move_task s today ts tid col =
          (check_rollover_and_archive s today ts, Except.error OpError.notEditable))
    ∨ (∃ t, getTask (check_rollover_and_archive s today ts) tid = some t ∧
        t.task_date = today ∧ t.archived = false ∧
        move_task s today ts tid col =
          ({ check_rollover_and_archive s today ts with
              tasks := (check_rollover_and_archive s today ts).tasks.map fun u =>
                if u.id = tid then { u with column_index := col } else u },
            Except.ok ())) := by
  simp only [move_task]
  cases h : getTask (check_rollover_and_archive s today ts) tid with
  | none => exact Or.inl ⟨rfl, rfl⟩
  | some t =>
    by_cases hc : t.task_date ≠ today ∨ t.archived = true
    · exact Or.inr (Or.inl ⟨t, rfl, hc, by dsimp only; rw [if_pos hc]⟩)
    · have hc' := hc
      push_neg at hc'
      exact Or.inr (Or.inr ⟨t, rfl, hc'.1,
        Bool.not_eq_true t.archived ▸ hc'.2,
        by dsimp only; rw [if_neg hc]⟩)

theorem edit_task_cases (s : Store) (today ts tid : Nat)
    (title description : Option String) :
    (getTask (check_rollover_and_archive s today ts) tid = none ∧
      edit_task s today ts tid title description =
        (check_rollover_and_archive s today ts, Except.error OpError.notFound))
    ∨ (∃ t, getTask (check_rollover_and_archive s today ts) tid = some t ∧
        (t.task_date ≠ today ∨ t.archived = true) ∧
        edit_task s today ts tid title description =
          (check_rollover_and_archive s today ts, Except.error OpError.notEditable))
    ∨ (∃ t, getTask (check_rollover_and_archive s today ts) tid = some t ∧
        t.task_date = today ∧ t.archived = false ∧
        edit_task s today ts tid title description =
          ({ check_rollover_and_archive s today ts with
              tasks := (check_rollover_and_archive s today ts).tasks.map fun u =>
                if u.id = tid then
                  { t with title := title.getD t.title,
                           description := description.getD t.description }
                else u },
            Except.ok { t with title := title.getD t.title,
                               description := description.getD t.description })) := by
  simp only [edit_task]
  cases h : getTask (check_rollover_and_archive s today ts) tid with
  | none => exact Or.inl ⟨rfl, rfl⟩
  | some t =>
    by_cases hc : t.task_date ≠ today ∨ t.archived = true
    · exact Or.inr (Or.inl ⟨t, rfl, hc, by dsimp only; rw [if_pos hc]⟩)
    · have hc' := hc
      push_neg at hc'
      exact Or.inr (Or.inr ⟨t, rfl, hc'.1,
        Bool.not_eq_true t.archived ▸ hc'.2,
        by dsimp only; rw [if_neg hc]⟩)

theorem delete_task_cases (s : Store) (today ts tid : Nat) :
    (getTask (check_rollover_and_archive s today ts) tid = none ∧
      delete_task s today ts tid =
        (check_rollover_and_archive s today ts, Except.error OpError.notFound))
    ∨ (∃ t, getTask (check_rollover_and_archive s today ts) tid = some t ∧
        (t.task_date ≠ today ∨ t.archived = true) ∧
        delete_task s today ts tid =
          (check_rollover_and_archive s today ts, Except.error OpError.notEditable))
    ∨ (∃ t, getTask (check_rollover_and_archive s today ts) tid = some t ∧
        t.task_date = today ∧ t.archived = false ∧
        delete_task s today ts tid =
          ({ check_rollover_and_archive s today ts with
              tasks := (check_rollover_and_archive s today ts).tasks.filter
                fun u => u.id ≠ tid },
            Except.ok ())) := by
  simp only [delete_task]
  cases h : getTask (check_rollover_and_archive s today ts) tid with
  | none => exact Or.inl ⟨rfl, rfl⟩
  | some t =>
    by_cases hc : t.task_date ≠ today ∨ t.archived = true
    · exact Or.inr (Or.inl ⟨t, rfl, hc, by dsimp only; rw [if_pos hc]⟩)
    · have hc' := hc
      push_neg at hc'
      exact Or.inr (Or.inr ⟨t, rfl, hc'.1,
        Bool.not_eq_true t.archived ▸ hc'.2,
        by dsimp only; rw [if_neg hc]⟩)

theorem archT_title (lo hi ts : Nat) (t : Task) :
    (archT lo hi ts t).title = t.title := by
  unfold archT; split_ifs <;> rfl

/-- `catch_up` with a clock reading strictly before a parsable watermark
is a no-op: nothing is archived or un-archived, the watermark keeps its
value. -/
theorem catchup_backward (s : Store) (w now ts : Nat)
    (hW : s.last_active_date = WM.valid w) (hlt : now < w) :
    check_rollover_and_archive s now ts = s := by
  obtain ⟨tasks, last, cols, nid⟩ := s
  simp only at hW
  subst hW
  unfold check_rollover_and_archive
  simp only
  rw [if_pos (by omega)]

theorem WMInv_catchup (s : Store) (today ts : Nat) (h : WMInv s today) :
    WMInv (check_rollover_and_archive s today ts) today := by
  obtain ⟨w, hw, hle, harch⟩ := h
  rw [catchup_valid_eq s w today ts hw]
  refine ⟨max w today, rfl, by omega, ?_⟩
  intro t' ht' hd'
  obtain ⟨t, ht, rfl⟩ := List.mem_map.mp ht'
  rw [archT_archived]
  rw [archT_date] at hd'
  cases harchv : t.archived with
  | true => simp
  | false =>
    have hwle : w ≤ t.task_date := by
      by_contra hlt
      have := harch t ht (by omega)
      rw [harchv] at this
      exact Bool.false_ne_true this
    simp only [Bool.false_or]
    rw [decide_eq_true hwle, decide_eq_true (by omega : t.task_date < max w today)]
    rfl

/-- A store whose tasks each refine a task of `s1` (same date, archived
not cleared) and whose watermark is unchanged keeps `WMInv`. -/
theorem WMInv_of_refines (s1 s2 : Store) (today : Nat)
    (hlast : s2.last_active_date = s1.last_active_date)
    (htasks : ∀ t2 ∈ s2.tasks, ∃ t1 ∈ s1.tasks,
      t2.task_date = t1.task_date ∧ (t1.archived = true → t2.archived = true))
    (h : WMInv s1 today) : WMInv s2 today := by
  obtain ⟨w, hw, hle, harch⟩ := h
  refine ⟨w, by rw [hlast, hw], hle, ?_⟩
  intro t2 ht2 hd2
  obtain ⟨t1, ht1, hdate, harch2⟩ := htasks t2 ht2
  exact harch2 (harch t1 ht1 (by omega))

/-- C1: for every stored watermark `W` and clock value `now` with
`W ≤ now`, one `check_rollover_and_archive` call sends every task
through `archT W now ts` — i.e. it archives (setting `archived := true`
and `archived_at`) exactly the previously non-archived tasks whose
`task_date` lies in the half-open range `[W, now)`, leaves every task
dated `≥ now` and every already-archived task untouched — and sets the
watermark to `now`. -/
theorem C1_catch_up_archives_window (s : Store) (W now ts : Nat)
    (hW : s.last_active_date = WM.valid W) (hle : W ≤ now) :
    check_rollover_and_archive s now ts =
      { s with tasks := s.tasks.map (archT W now ts),
               last_active_date := WM.valid now } := by
  have h := catchup_valid_eq s W now ts hW
  rwa [Nat.max_eq_right hle] at h

/-- Witness for C1 at the concrete store `sA` (watermark day 3, one
unarchived task dated day 3) and clock day 5: the task is archived with
`archived_at = 7` and the watermark becomes day 5. -/
theorem C1_catch_up_archives_window_witness :
    sA.last_active_date = WM.valid 3 ∧ 3 ≤ 5 ∧
      check_rollover_and_archive sA 5 7 =
        { sA with tasks := sA.tasks.map (archT 3 5 7),
                  last_active_date := WM.valid 5 } :=
  ⟨rfl, by decide, C1_catch_up_archives_window sA 3 5 7 rfl (by decide)⟩

/-- C6: a `catch_up` call on a store whose persisted watermark is absent
or not parsable as a date persists the watermark as `now`, archives
nothing, changes nothing else, and reports no error. -/
theorem C6_corrupt_watermark_self_heals (s : Store) (now ts : Nat)
    (h : s.last_active_date = WM.absent ∨
      ∃ str, s.last_active_date = WM.corrupt str) :
    check_rollover_and_archive s now ts =
      { s with last_active_date := WM.valid now } := by
  obtain ⟨tasks, last, cols, nid⟩ := s
  simp only at h
  rcases h with h | ⟨str, h⟩ <;> subst h <;> rfl

/-- Witness for C6: the spec's scenario — with the watermark corrupted
to the literal string `"not-a-date"`, `catch_up` at `2024-02-01`
(ordinal 738917) resets the watermark to that date and archives
nothing. -/
theorem C6_corrupt_watermark_self_heals_witness :
    sB.last_active_date = WM.corrupt "not-a-date" ∧
      check_rollover_and_archive sB 738917 0 =
        { sB with last_active_date := WM.valid 738917 } :=
  ⟨rfl, C6_corrupt_watermark_self_heals sB 738917 0
    (Or.inr ⟨"not-a-date", rfl⟩)⟩

/-- C2 counterexample: with the corrupt-watermark store `sB` (one
unarchived task dated day 5) the non-decreasing sequence of `catch_up`
calls at days 3 then 10 archives task 1, while a single `catch_up` at
day 10 archives nothing — so over arbitrary initial store states the
batching equivalence is false. -/
theorem C2_batching_counterexample :
    List.Chain' (fun a b : Nat × Nat => a.1 ≤ b.1) [(3, 0), (10, 0)] ∧
      [(3, 0), (10, 0)].getLast (by decide) = (10, 0) ∧
      archivedIds (catchUps sB [(3, 0), (10, 0)]) = [1] ∧
      archivedIds (check_rollover_and_archive sB 10 0) = [] :=
  ⟨List.chain'_cons.mpr ⟨by decide, List.chain'_singleton _⟩, rfl,
    by decide, by decide⟩

/-- C2 (amended): for every initial store state whose persisted
watermark is parsable, and every nonempty sequence of `catch_up` calls
with non-decreasing clock values, the archived set after the sequence
equals the archived set after a single `catch_up` with the final clock
value.  (On an absent or corrupt watermark the first call only resets
the watermark, so the equivalence fails there — see the
counterexample.) -/
theorem C2_batching_valid_watermark (s : Store) (W : Nat)
    (hW : s.last_active_date = WM.valid W) (calls : List (Nat × Nat))
    (hmono : List.Chain' (fun a b : Nat × Nat => a.1 ≤ b.1) calls)
    (hne : calls ≠ []) (tsf : Nat) :
    archivedIds (catchUps s calls)
      = archivedIds (check_rollover_and_archive s (calls.getLast hne).1 tsf) :=
  catchUps_archivedIds calls s W hW hmono hne tsf

/-- Witness for C2 (amended) at store `sA` (valid watermark day 3, one
task dated day 3) and the call sequence days 4 then 5: both the batched
run and the single call at day 5 archive exactly task 1. -/
theorem C2_batching_valid_watermark_witness :
    sA.last_active_date = WM.valid 3 ∧
      List.Chain' (fun a b : Nat × Nat => a.1 ≤ b.1) [(4, 0), (5, 1)] ∧
      archivedIds (catchUps sA [(4, 0), (5, 1)])
        = archivedIds (check_rollover_and_archive sA 5 9) ∧
      archivedIds (catchUps sA [(4, 0), (5, 1)]) = [1] :=
  ⟨rfl, List.chain'_cons.mpr ⟨by decide, List.chain'_singleton _⟩,
    C2_batching_valid_watermark sA 3 rfl [(4, 0), (5, 1)]
      (List.chain'_cons.mpr ⟨by decide, List.chain'_singleton _⟩)
      (by decide) 9,
    by decide⟩

/-- C3: for every task id and store state, `move_task`, `edit_task` and
`delete_task` reject with `notFound` exactly when no task with that id
exists after rollover (never a silent no-op), reject with `notEditable`
exactly when the task exists but `task_date ≠ today` or
`archived = true`, and on any rejection the store (in particular the
task's `column_index` and every other field) is exactly the
post-rollover store, unchanged by the operation. -/
theorem C3_lifecycle_gating (s : Store) (today ts tid : Nat) (col : Int)
    (etitle edesc : Option String) :
    (((move_task s today ts tid col).2 = Except.error OpError.notFound
        ↔ getTask (check_rollover_and_archive s today ts) tid = none) ∧
      ((move_task s today ts tid col).2 = Except.error OpError.notEditable
        ↔ ∃ t, getTask (check_rollover_and_archive s today ts) tid = some t ∧
            (t.task_date ≠ today ∨ t.archived = true)) ∧
      (∀ e, (move_task s today ts tid col).2 = Except.error e →
        (move_task s today ts tid col).1 = check_rollover_and_archive s today ts)) ∧
    (((edit_task s today ts tid etitle edesc).2 = Except.error OpError.notFound
        ↔ getTask (check_rollover_and_archive s today ts) tid = none) ∧
      ((edit_task s today ts tid etitle edesc).2 = Except.error OpError.notEditable
        ↔ ∃ t, getTask (check_rollover_and_archive s today ts) tid = some t ∧
            (t.task_date ≠ today ∨ t.archived = true)) ∧
      (∀ e, (edit_task s today ts tid etitle edesc).2 = Except.error e →
        (edit_task s today ts tid etitle edesc).1
          = check_rollover_and_archive s today ts)) ∧
    (((delete_task s today ts tid).2 = Except.error OpError.notFound
        ↔ getTask (check_rollover_and_archive s today ts) tid = none) ∧
      ((delete_task s today ts tid).2 = Except.error OpError.notEditable
        ↔ ∃ t, getTask (check_rollover_and_archive s today ts) tid = some t ∧
            (t.task_date ≠ today ∨ t.archived = true)) ∧
      (∀ e, (delete_task s today ts tid).2 = Except.error e →
        (delete_task s today ts tid).1 = check_rollover_and_archive s today ts)) := by
  refine ⟨?_, ?_, ?_⟩
  · rcases move_task_cases s today ts tid col with
      ⟨hn, hm⟩ | ⟨t, hs, hc, hm⟩ | ⟨t, hs, hd, ha, hm⟩
    · exact ⟨iff_of_true (by rw [hm]) hn,
        iff_of_false (by rw [hm]; simp)
          (fun ⟨t, hsome, _⟩ => by rw [hn] at hsome; cases hsome),
        fun e _ => by rw [hm]⟩
    · exact ⟨iff_of_false (by rw [hm]; simp) (by rw [hs]; simp),
        iff_of_true (by rw [hm]) ⟨t, hs, hc⟩,
        fun e _ => by rw [hm]⟩
    · refine ⟨iff_of_false (by rw [hm]; simp) (by rw [hs]; simp),
        iff_of_false (by rw [hm]; simp) ?_, fun e he => by rw [hm] at he; cases he⟩
      intro ⟨t', hsome', hcond⟩
      rw [hs] at hsome'
      cases hsome'
      rcases hcond with hcond | hcond
      · exact hcond hd
      · rw [ha] at hcond
        cases hcond
  · rcases edit_task_cases s today ts tid etitle edesc with
      ⟨hn, hm⟩ | ⟨t, hs, hc, hm⟩ | ⟨t, hs, hd, ha, hm⟩
    · exact ⟨iff_of_true (by rw [hm]) hn,
        iff_of_false (by rw [hm]; simp)
          (fun ⟨t, hsome, _⟩ => by rw [hn] at hsome; cases hsome),
        fun e _ => by rw [hm]⟩
    · exact ⟨iff_of_false (by rw [hm]; simp) (by rw [hs]; simp),
        iff_of_true (by rw [hm]) ⟨t, hs, hc⟩,
        fun e _ => by rw [hm]⟩
    · refine ⟨iff_of_false (by rw [hm]; simp) (by rw [hs]; simp),
        iff_of_false (by rw [hm]; simp) ?_, fun e he => by rw [hm] at he; cases he⟩
      intro ⟨t', hsome', hcond⟩
      rw [hs] at hsome'
      cases hsome'
      rcases hcond with hcond | hcond
      · exact hcond hd
      · rw [ha] at hcond
        cases hcond
  · rcases delete_task_cases s today ts tid with
      ⟨hn, hm⟩ | ⟨t, hs, hc, hm⟩ | ⟨t, hs, hd, ha, hm⟩
    · exact ⟨iff_of_true (by rw [hm]) hn,
        iff_of_false (by rw [hm]; simp)
          (fun ⟨t, hsome, _⟩ => by rw [hn] at hsome; cases hsome),
        fun e _ => by rw [hm]⟩
    · exact ⟨iff_of_false (by rw [hm]; simp) (by rw [hs]; simp),
        iff_of_true (by rw [hm]) ⟨t, hs, hc⟩,
        fun e _ => by rw [hm]⟩
    · refine ⟨iff_of_false (by rw [hm]; simp) (by rw [hs]; simp),
        iff_of_false (by rw [hm]; simp) ?_, fun e he => by rw [hm] at he; cases he⟩
      intro ⟨t', hsome', hcond⟩
      rw [hs] at hsome'
      cases hsome'
      rcases hcond with hcond | hcond
      · exact hcond hd
      · rw [ha] at hcond
        cases hcond

/-- C4 counterexample: on the empty 5-column store `sC`,
`add_task` with `column_index = 7` succeeds and stores `column_index = 7`
as given, although the valid column range ends at index 4 — the claimed
clamping to `[0, N_columns - 1]` does not happen. -/
theorem C4_no_clamping_counterexample :
    (add_task sC 5 0 (some "a") "" 7).2
        = Except.ok ⟨1, "a", "", 7, 0, 5, false, none⟩ ∧
      (boardColumns sC.columns).length = 5 ∧
      ¬ ((7 : Int) ≤ 5 - 1) :=
  ⟨rfl, by decide, by decide⟩

/-- C4 (amended): `add_task` fails with the `'title required'` error
exactly when the title is absent or empty; otherwise it inserts exactly
one new task with `task_date = today`, `archived = false`, no
`archived_at`, the next id, and `column_index` stored exactly as given
(not clamped), and returns the created record. -/
theorem C4_add_task_spec (s : Store) (today ts : Nat) (title : Option String)
    (desc : String) (col : Int) :
    (title = none ∨ title = some "" →
      add_task s today ts title desc col
        = (check_rollover_and_archive s today ts, Except.error "title required")) ∧
    (¬(title = none ∨ title = some "") →
      ∃ t, add_task s today ts title desc col
          = ({ check_rollover_and_archive s today ts with
                tasks := (check_rollover_and_archive s today ts).tasks ++ [t],
                next_id := (check_rollover_and_archive s today ts).next_id + 1 },
              Except.ok t) ∧
        t.task_date = today ∧ t.archived = false ∧ t.archived_at = none ∧
        t.column_index = col ∧ t.title = title.getD "" ∧
        t.description = desc ∧
        t.id = (check_rollover_and_archive s today ts).next_id) := by
  constructor
  · intro h
    simp only [add_task]
    rw [if_pos h]
  · intro h
    simp only [add_task]
    rw [if_neg h]
    exact ⟨_, rfl, rfl, rfl, rfl, rfl, rfl, rfl, rfl⟩

/-- Witness for C4 (amended) creating a task titled `"x"` in column 2 on
the empty store `sC` at clock day 5. -/
theorem C4_add_task_spec_witness :
    ¬((some "x" : Option String) = none ∨ (some "x" : Option String) = some "") ∧
      ∃ t, add_task sC 5 0 (some "x") "d" 2
          = ({ check_rollover_and_archive sC 5 0 with
                tasks := (check_rollover_and_archive sC 5 0).tasks ++ [t],
                next_id := (check_rollover_and_archive sC 5 0).next_id + 1 },
              Except.ok t) ∧
        t.task_date = 5 ∧ t.archived = false ∧ t.archived_at = none ∧
        t.column_index = 2 ∧ t.title = (some "x").getD "" ∧
        t.description = "d" ∧
        t.id = (check_rollover_and_archive sC 5 0).next_id :=
  ⟨by decide, (C4_add_task_spec sC 5 0 (some "x") "d" 2).2 (by decide)⟩

theorem WMInv_map_fields (s1 : Store) (today : Nat) (f : Task → Task)
    (hf : ∀ t, (f t).task_date = t.task_date ∧ (f t).archived = t.archived)
    (h : WMInv s1 today) :
    WMInv { s1 with tasks := s1.tasks.map f } today := by
  refine WMInv_of_refines s1 _ today rfl ?_ h
  intro t2 ht2
  obtain ⟨t1, ht1, rfl⟩ := List.mem_map.mp ht2
  exact ⟨t1, ht1, (hf t1).1, fun ha => by rw [(hf t1).2]; exact ha⟩

/-- C5: the data-model invariant `WMInv` — the stored watermark parses,
is at most today, and every task dated strictly before it is archived —
is preserved by `catch_up` and by every lifecycle operation and archive
query, and a `catch_up` whose clock value lies strictly before the
stored watermark is an exact no-op (it never un-archives or archives
into the future). -/
theorem C5_invariant_preserved (s : Store) (today ts d y w tid : Nat)
    (ncol col : Int) (title etitle edesc : Option String) (desc : String)
    (h : WMInv s today) :
    WMInv (check_rollover_and_archive s today ts) today ∧
    WMInv (add_task s today ts title desc col).1 today ∧
    WMInv (move_task s today ts tid ncol).1 today ∧
    WMInv (edit_task s today ts tid etitle edesc).1 today ∧
    WMInv (delete_task s today ts tid).1 today ∧
    WMInv (archive_day s today ts d).1 today ∧
    WMInv (archive_week s today ts y w).1 today ∧
    (∀ w' now' ts', s.last_active_date = WM.valid w' → now' < w' →
      check_rollover_and_archive s now' ts' = s) := by
  have h1 : WMInv (check_rollover_and_archive s today ts) today :=
    WMInv_catchup s today ts h
  refine ⟨h1, ?_, ?_, ?_, ?_, h1, h1, ?_⟩
  · simp only [add_task]
    split_ifs with hc
    · exact h1
    · obtain ⟨w1, hw1, hle1, harch1⟩ := h1
      refine ⟨w1, hw1, hle1, ?_⟩
      intro t' ht' hd'
      rcases List.mem_append.mp ht' with hmem | hmem
      · exact harch1 t' hmem hd'
      · rw [List.mem_singleton] at hmem
        subst hmem
        simp only at hd'
        omega
  · rcases move_task_cases s today ts tid ncol with
      ⟨_, hm⟩ | ⟨t, _, _, hm⟩ | ⟨t, _, _, _, hm⟩
    · rw [hm]; exact h1
    · rw [hm]; exact h1
    · rw [hm]
      exact WMInv_map_fields _ today _
        (fun u => by split_ifs <;> exact ⟨rfl, rfl⟩) h1
  · rcases edit_task_cases s today ts tid etitle edesc with
      ⟨_, hm⟩ | ⟨t, _, _, hm⟩ | ⟨t, hs, hd, ha, hm⟩
    · rw [hm]; exact h1
    · rw [hm]; exact h1
    · rw [hm]
      dsimp only
      refine WMInv_of_refines (check_rollover_and_archive s today ts) _
        today rfl ?_ h1
      intro t2 ht2
      obtain ⟨t1, ht1, rfl⟩ := List.mem_map.mp ht2
      by_cases hid : t1.id = tid
      · rw [if_pos hid]
        exact ⟨t, List.mem_of_find?_eq_some hs, rfl,
          fun hcontra => by rw [ha] at hcontra; cases hcontra⟩
      · rw [if_neg hid]
        exact ⟨t1, ht1, rfl, fun ha2 => ha2⟩
  · rcases delete_task_cases s today ts tid with
      ⟨_, hm⟩ | ⟨t, _, _, hm⟩ | ⟨t, _, _, _, hm⟩
    · rw [hm]; exact h1
    · rw [hm]; exact h1
    · rw [hm]
      dsimp only
      refine WMInv_of_refines (check_rollover_and_archive s today ts) _
        today rfl ?_ h1
      intro t2 ht2
      exact ⟨t2, List.mem_of_mem_filter ht2, rfl, fun ha2 => ha2⟩
  · intro w' now' ts' hW hlt
    exact catchup_backward s w' now' ts' hW hlt

/-- Witness for C5 at the concrete store `sA` (watermark day 3 = today,
one unarchived task dated day 3): the invariant holds and is preserved
by a `catch_up` call, and a backdated `catch_up` at day 2 is a no-op. -/
theorem C5_invariant_preserved_witness :
    WMInv sA 3 ∧ WMInv (check_rollover_and_archive sA 3 0) 3 ∧
      check_rollover_and_archive sA 2 0 = sA := by
  have hInv : WMInv sA 3 := ⟨3, rfl, by decide, by decide⟩
  have h := C5_invariant_preserved sA 3 0 3 2024 1 1 0 0 none none none "" hInv
  exact ⟨hInv, h.1, h.2.2.2.2.2.2.2 3 2 0 rfl (by decide)⟩

/-- Witness for C3, the spec's scenario: `move_task` on task 1 of `sD`
(dated day 5, i.e. yesterday once the clock reads day 6, so archived by
the rollover) is rejected as not editable and the store — including the
task's `column_index` — is exactly the post-rollover store. -/
theorem C3_lifecycle_gating_witness :
    (move_task sD 6 0 1 2).2 = Except.error OpError.notEditable ∧
      (move_task sD 6 0 1 2).1 = check_rollover_and_archive sD 6 0 := by
  have h := C3_lifecycle_gating sD 6 0 1 2 none none
  have he : (move_task sD 6 0 1 2).2 = Except.error OpError.notEditable :=
    h.1.2.1.mpr ⟨⟨1, "a", "", 0, 0, 5, true, some 0⟩, by decide,
      Or.inl (by decide)⟩
  exact ⟨he, h.1.2.2 OpError.notEditable he⟩

/-- C7 counterexample: the archive day view has no `archived` filter —
on store `sA` with clock day 3, `archive_day` for day 3 returns the
still-unarchived task `tA`, so the day view is not "exactly the
archived tasks of that date". -/
theorem C7_day_view_counterexample :
    (archive_day sA 3 0 3).2 = [tA] ∧ tA.archived = false :=
  ⟨rfl, rfl⟩

/-- C7 (amended): after the rollover runs, the week view returns exactly
the archived tasks whose ISO-8601 week-numbering `(year, week)` pair
equals the requested one — including late-December dates that
ISO-week-number into week 1 of the following year, e.g. 2024-12-30 is in
ISO week (2025, 1) — while the day view returns every task of the
requested date regardless of its `archived` flag (for dates strictly
before today these coincide with the archived tasks, by the watermark
invariant). -/
theorem C7_archive_queries (s : Store) (today ts day y w : Nat) (t : Task) :
    (t ∈ (archive_day s today ts day).2 ↔
      t ∈ (check_rollover_and_archive s today ts).tasks ∧ t.task_date = day) ∧
    (t ∈ (archive_week s today ts y w).2 ↔
      t ∈ (check_rollover_and_archive s today ts).tasks ∧ t.archived = true ∧
        (isocalendar t.task_date).1 = y ∧ (isocalendar t.task_date).2.1 = w) ∧
    isocalendar (ymd2ord 2024 12 30) = (2025, 1, 1) := by
  refine ⟨?_, ?_, by decide⟩
  · simp [archive_day, List.mem_filter]
  · simp [archive_week, List.mem_filter, and_assoc]

/-- C8 counterexample: three request shapes make the handlers raise an
uncaught Python exception instead of returning a client-visible error —
`move_task` with no JSON body (`data.get` on `None`), `add_task` with a
non-numeric `column_index` (`int('abc')`), and `move_task` with the
`column_index` field absent (`int(None)`). -/
theorem C8_uncaught_exception_counterexample :
    (move_task_route sC 5 0 none).2 = PyResult.exn ∧
      (add_task_route sC 5 0 (some ⟨some "a", none, none, some "abc"⟩)).2
        = PyResult.exn ∧
      (move_task_route sC 5 0 (some ⟨none, none, some "1", none⟩)).2
        = PyResult.exn :=
  ⟨rfl, rfl, rfl⟩

/-- C8 (amended): `edit_task` and `delete_task` never let an exception
escape for any request; `add_task` and `move_task` are exception-free
exactly outside their parsing prologue — `add_task` whenever the
supplied `column_index` is absent or numeric, `move_task` whenever a
JSON body is present and its `column_index` parses — and in all those
cases every operation either fully succeeds or is rejected with a
client-visible error result. -/
theorem C8_routes_total_except_parsing :
    (∀ (s : Store) (today ts : Nat) (body : Option ReqData),
      (edit_task_route s today ts body).2 ≠ PyResult.exn) ∧
    (∀ (s : Store) (today ts : Nat) (body : Option ReqData),
      (delete_task_route s today ts body).2 ≠ PyResult.exn) ∧
    (∀ (s : Store) (today ts : Nat) (body : Option ReqData),
      (∀ v, (body.getD emptyReq).column_index = some v → (pyInt v).isSome) →
      (add_task_route s today ts body).2 ≠ PyResult.exn) ∧
    (∀ (s : Store) (today ts : Nat) (data : ReqData) (v : String) (n : Int),
      data.column_index = some v → pyInt v = some n →
      (move_task_route s today ts (some data)).2 ≠ PyResult.exn) := by
  refine ⟨?_, ?_, ?_, ?_⟩
  · intro s today ts body
    simp only [edit_task_route]
    cases hg : getTaskRaw (check_rollover_and_archive s today ts)
        (body.getD emptyReq).rid with
    | none => simp
    | some t =>
      dsimp only
      split_ifs <;> simp
  · intro s today ts body
    simp only [delete_task_route]
    cases hg : getTaskRaw (check_rollover_and_archive s today ts)
        (body.getD emptyReq).rid with
    | none => simp
    | some t =>
      dsimp only
      split_ifs <;> simp
  · intro s today ts body h
    simp only [add_task_route]
    cases hci : (body.getD emptyReq).column_index with
    | none =>
      dsimp only
      split_ifs <;> simp
    | some v =>
      dsimp only
      obtain ⟨n, hn⟩ := Option.isSome_iff_exists.mp (h v hci)
      rw [hn]
      dsimp only
      split_ifs <;> simp
  · intro s today ts data v n hv hn
    simp only [move_task_route]
    rw [hv]
    dsimp only
    rw [hn]
    dsimp only
    cases hg : getTaskRaw (check_rollover_and_archive s today ts) data.rid with
    | none => simp
    | some t =>
      dsimp only
      split_ifs <;> simp

/-- Witness for C8 (amended): concrete well-formed requests to the three
parametrised conjuncts do not raise. -/
theorem C8_routes_total_except_parsing_witness :
    (edit_task_route sC 5 0 none).2 ≠ PyResult.exn ∧
      (add_task_route sC 5 0 (some ⟨some "a", none, none, some "7"⟩)).2
        ≠ PyResult.exn ∧
      (move_task_route sC 5 0 (some ⟨none, none, some "1", some "2"⟩)).2
        ≠ PyResult.exn := by
  refine ⟨C8_routes_total_except_parsing.1 sC 5 0 none, ?_, ?_⟩
  · apply C8_routes_total_except_parsing.2.2.1 sC 5 0
    intro v hv
    have hv' : v = "7" := (Option.some.inj hv).symm
    subst hv'
    decide
  · exact C8_routes_total_except_parsing.2.2.2 sC 5 0
      ⟨none, none, some "1", some "2"⟩ "2" 2 rfl (by decide)

/-- C9 counterexample: on store `sD` every title is non-empty, yet a
successful `edit_task` carrying the empty string as title stores the
empty title — the non-empty-title invariant is not preserved by
`edit_task`. -/
theorem C9_empty_title_counterexample :
    titlesNonEmpty sD ∧
      (edit_task sD 5 0 1 (some "") none).1.tasks
        = [⟨1, "", "", 0, 0, 5, false, none⟩] ∧
      ¬ titlesNonEmpty (edit_task sD 5 0 1 (some "") none).1 := by
  refine ⟨(by decide : ∀ t ∈ sD.tasks, t.title ≠ ""), rfl, ?_⟩
  intro hc
  exact hc ⟨1, "", "", 0, 0, 5, false, none⟩
    (by exact List.mem_singleton_self _) rfl

theorem titlesNonEmpty_catchup (s : Store) (today ts : Nat)
    (h : titlesNonEmpty s) :
    titlesNonEmpty (check_rollover_and_archive s today ts) := by
  obtain ⟨tasks, last, cols, nid⟩ := s
  unfold check_rollover_and_archive
  cases last with
  | absent => exact h
  | corrupt str => exact h
  | valid w =>
    dsimp only
    split_ifs with hge
    · exact h
    · intro t' ht'
      simp only at ht'
      rw [archiveLoop_eq_map] at ht'
      obtain ⟨t, ht, rfl⟩ := List.mem_map.mp ht'
      rw [archT_title]
      exact h t ht

/-- C9 (amended): the non-empty-title invariant is preserved by
`catch_up`, `add_task` (unconditionally: an absent or empty title is
rejected before insertion), `move_task` and `delete_task`, and by
`edit_task` whenever the supplied title field is omitted or non-empty;
an `edit_task` carrying an empty title value stores it (see the
counterexample). -/
theorem C9_title_invariant (s : Store) (today ts tid : Nat) (ncol col : Int)
    (title etitle edesc : Option String) (desc : String)
    (h : titlesNonEmpty s) :
    titlesNonEmpty (check_rollover_and_archive s today ts) ∧
    titlesNonEmpty (add_task s today ts title desc col).1 ∧
    titlesNonEmpty (move_task s today ts tid ncol).1 ∧
    titlesNonEmpty (delete_task s today ts tid).1 ∧
    ((etitle = none ∨ ∃ v, etitle = some v ∧ v ≠ "") →
      titlesNonEmpty (edit_task s today ts tid etitle edesc).1) := by
  have h1 := titlesNonEmpty_catchup s today ts h
  refine ⟨h1, ?_, ?_, ?_, ?_⟩
  · simp only [add_task]
    split_ifs with hc
    · exact h1
    · intro t' ht'
      rcases List.mem_append.mp ht' with hmem | hmem
      · exact h1 t' hmem
      · rw [List.mem_singleton] at hmem
        subst hmem
        cases title with
        | none => exact absurd (Or.inl rfl) hc
        | some v =>
          intro hv
          exact hc (Or.inr (by rw [show v = "" from hv]))
  · rcases move_task_cases s today ts tid ncol with
      ⟨_, hm⟩ | ⟨t, _, _, hm⟩ | ⟨t, _, _, _, hm⟩
    · rw [hm]; exact h1
    · rw [hm]; exact h1
    · rw [hm]
      intro t' ht'
      obtain ⟨u, hu, rfl⟩ := List.mem_map.mp ht'
      split_ifs <;> exact h1 u hu
  · rcases delete_task_cases s today ts tid with
      ⟨_, hm⟩ | ⟨t, _, _, hm⟩ | ⟨t, _, _, _, hm⟩
    · rw [hm]; exact h1
    · rw [hm]; exact h1
    · rw [hm]
      intro t' ht'
      exact h1 t' (List.mem_of_mem_filter ht')
  · intro he
    rcases edit_task_cases s today ts tid etitle edesc with
      ⟨_, hm⟩ | ⟨t, _, _, hm⟩ | ⟨t, hs, _, _, hm⟩
    · rw [hm]; exact h1
    · rw [hm]; exact h1
    · rw [hm]
      intro t' ht'
      obtain ⟨u, hu, rfl⟩ := List.mem_map.mp ht'
      split_ifs
      · rcases he with he | ⟨v, hev, hv⟩
        · subst he
          exact h1 t (List.mem_of_find?_eq_some hs)
        · subst hev
          exact hv
      · exact h1 u hu

/-- Witness for C9 (amended) at store `sD`: the invariant holds and is
preserved by an `edit_task` that omits the title field. -/
theorem C9_title_invariant_witness :
    titlesNonEmpty sD ∧ titlesNonEmpty (edit_task sD 5 0 1 none none).1 := by
  have hne : titlesNonEmpty sD := (by decide : ∀ t ∈ sD.tasks, t.title ≠ "")
  exact ⟨hne,
    (C9_title_invariant sD 5 0 1 0 0 none none none "" hne).2.2.2.2 (Or.inl rfl)⟩

/-- C10: after the rollover runs, the board view groups every task dated
today under its `column_index` bucket regardless of its `archived` flag
— a defensively-archived task dated today still appears on the board. -/
theorem C10_board_shows_all_today_tasks (s : Store) (today ts : Nat) (t : Task)
    (hmem : t ∈ (check_rollover_and_archive s today ts).tasks)
    (hdate : t.task_date = today) :
    ∃ l, dictFind (index s today ts).2.2 t.column_index = some l ∧ t ∈ l := by
  have hf : t ∈ (check_rollover_and_archive s today ts).tasks.filter
      (fun u => u.task_date = today) :=
    List.mem_filter.mpr ⟨hmem, by simp [hdate]⟩
  exact memDict_build_mem _ _ t hf

/-- Witness for C10 at store `sA` with clock day 3: task `tA` (dated
day 3) appears in the bucket of its column 0. -/
theorem C10_board_shows_all_today_tasks_witness :
    tA ∈ (check_rollover_and_archive sA 3 0).tasks ∧
      ∃ l, dictFind (index sA 3 0).2.2 tA.column_index = some l ∧ tA ∈ l :=
  ⟨by decide, C10_board_shows_all_today_tasks sA 3 0 tA (by decide) rfl⟩

end Kanban
